import Mathlib

/- Shallow embedding of the badavi Markdown-to-HTML converter core
   (src/converter.ts, src/utils.ts, src/types.ts). -/

namespace Badavi

/-- Writing direction, from the BadaviConfig union type in src/types.ts. -/
inductive Direction where
  | ltr
  | rtl
  deriving DecidableEq, Repr

/-- String form of a direction, as interpolated into the pandoc arguments
    (converter.ts line 86). -/
def dirStr : Direction → String
  | .ltr => "ltr"
  | .rtl => "rtl"

/-- Embeds the BadaviConfig interface of src/types.ts (later revision, with
    pandocPath).  The field defaultLanguageCodeIso639_2letter is the name
    actually read by converter.ts line 66 and utils.ts line 8. -/
structure BadaviConfig where
  defaultLanguageCodeIso639_2letter : String
  defaultDirection : Direction
  cssPath : Option String := none
  pandocArgs : Option (List String) := none
  pandocPath : Option String := none

/- Link rewriter: embeds converter.ts lines 145-158.  The regex is
   href="([^"#?]+\.md)(\?[^"#]*)?(#[^"#]*)?" with flags g and i.  The scan is
   modelled character by character on the underlying char list.  Group 1 is
   forced to be the maximal run of characters outside the quote, hash and
   question-mark set, because the character after group 1 must be a question
   mark, a hash or the closing quote, and all three are excluded from the
   group-1 character class; hence the deterministic scanner below coincides
   with the backtracking regex engine on every input. -/

/-- Character class of regex group 1: anything but a quote, hash or question mark. -/
def pathChar (c : Char) : Bool := c != '"' && c != '#' && c != '?'

/-- Character class of regex groups 2 and 3: anything but a quote or hash. -/
def fragChar (c : Char) : Bool := c != '"' && c != '#'

/-- True when the list ends in a dot followed by the letter m and the letter d,
    in either case (the case-insensitive regex suffix for .md). -/
def endsDotMd (l : List Char) : Bool :=
  match l.reverse with
  | d :: m :: dot :: _ => (d == 'd' || d == 'D') && (m == 'm' || m == 'M') && dot == '.'
  | _ => false

/-- Removes the final three characters (used for the .md to .html substitution
    performed by replace with the anchored case-insensitive md pattern). -/
def stripLast3 (l : List Char) : List Char := l.take (l.length - 3)

/-- Embeds the backslash normalisation of converter.ts line 156. -/
def normSlash (c : Char) : Char := if c == '\\' then '/' else c

/-- The replacement text built by the callback of converter.ts lines 150-157. -/
def mdReplacement (p q f : List Char) : List Char :=
  "href=\"".data ++ (stripLast3 p ++ ".html".data).map normSlash ++ q ++ f ++ ['"']

/-- Matches the part of the regex after the literal open, namely
    group 1 (a path ending in .md), optional group 2 (query), optional
    group 3 (fragment) and the closing quote.  Returns the replacement text
    and the characters after the match. -/
def matchTail (rest : List Char) : Option (List Char × List Char) :=
  let p := rest.takeWhile pathChar
  let r1 := rest.dropWhile pathChar
  if 4 ≤ p.length ∧ endsDotMd p = true then
    let qr : List Char × List Char :=
      match r1 with
      | '?' :: t => ('?' :: t.takeWhile fragChar, t.dropWhile fragChar)
      | _ => ([], r1)
    let fr : List Char × List Char :=
      match qr.2 with
      | '#' :: t => ('#' :: t.takeWhile fragChar, t.dropWhile fragChar)
      | _ => ([], qr.2)
    match fr.2 with
    | '"' :: r4 => some (mdReplacement p qr.1 fr.1, r4)
    | _ => none
  else none

/-- Tries to match the whole regex at the head of the list: the literal
    h r e f = " (letters case-insensitive, per the i flag), then the tail. -/
def hrefAt (l : List Char) : Option (List Char × List Char) :=
  match l with
  | c1 :: c2 :: c3 :: c4 :: c5 :: c6 :: rest =>
    if c1.toLower = 'h' ∧ c2.toLower = 'r' ∧ c3.toLower = 'e' ∧ c4.toLower = 'f'
        ∧ c5 = '=' ∧ c6 = '"' then
      matchTail rest
    else none
  | _ => none

/-- Global scan of the replace call: at each position, substitute a match and
    continue after it, or copy one character and move on.  The fuel argument
    only bounds the recursion; rewriteLinks supplies the list length, which is
    never exhausted because every step consumes at least one character. -/
def rewriteAux : Nat → List Char → List Char × Nat
  | _, [] => ([], 0)
  | 0, l => (l, 0)
  | fuel + 1, c :: cs =>
    match hrefAt (c :: cs) with
    | some (rep, rest) =>
      let r := rewriteAux fuel rest
      (rep ++ r.1, r.2 + 1)
    | none =>
      let r := rewriteAux fuel cs
      (c :: r.1, r.2)

/-- Embeds converter.ts lines 145-158: the global case-insensitive replace of
    href attributes whose value ends in .md, returning the rewritten text and
    the value of linksFixedCount. -/
def rewriteLinks (html : String) : String × Nat :=
  let r := rewriteAux html.data.length html.data
  (⟨r.1⟩, r.2)

/- Language and direction resolution: embeds converter.ts lines 58-76.  The
   external collaborators (the franc statistical detector, the langs lookup
   table and the rtl-detect set) are node dependencies, not repository code;
   the spec treats them as black boxes, so they are modelled from the spec:
   the detector core is an arbitrary function parameter behind the minimum
   length guard, and the two tables are static excerpts. -/

/-- Modelled from the spec: the external statistical detector (franc) with its
    minLength option; text shorter than the minimum reliable-detection length
    yields the undetermined sentinel, otherwise the detector core decides. -/
def franc (detect : String → String) (minLength : Nat) (value : String) : String :=
  if value.length < minLength then "und" else detect value

/-- Modelled from the spec: the static lookup table of the external langs
    library, from a three-letter code to the two-letter display tag (an
    excerpt; codes without an entry yield none and the caller falls back to
    the three-letter code itself). -/
def langsWhere3 : String → Option String
  | "eng" => some "en"
  | "fra" => some "fr"
  | "deu" => some "de"
  | "spa" => some "es"
  | "fas" => some "fa"
  | "pes" => some "fa"
  | "ara" => some "ar"
  | "arb" => some "ar"
  | "heb" => some "he"
  | "urd" => some "ur"
  | _ => none

/-- Modelled from the spec: the static set of right-to-left language codes of
    the external rtl-detect library, holding at minimum Persian, Arabic,
    Hebrew and Urdu. -/
def rtlLangCodes : List String := ["ara", "arb", "fas", "pes", "heb", "urd"]

/-- Embeds the rtl-detect isRtlLang call of converter.ts line 74 as a direct
    membership test in the static set. -/
def isRtlLang (code : String) : Bool := rtlLangCodes.contains code

/-- Source of the resolved language, from the detectionSource strings of
    converter.ts lines 68 and 75. -/
inductive DetectionSource where
  | defaulted
  | detected
  deriving DecidableEq, Repr

/-- Result of the language and direction resolution of converter.ts lines 58-76. -/
structure LangResolution where
  langTag : String
  direction : Direction
  source : DetectionSource
  deriving DecidableEq, Repr

/-- Embeds converter.ts lines 58-76: franc is called with minLength 10; the
    undetermined sentinel selects the configured defaults, otherwise the langs
    table maps the three-letter code to a tag (falling back to the code) and
    rtl-detect decides the direction. -/
def resolveLanguage (detect : String → String) (config : BadaviConfig)
    (mdContent : String) : LangResolution :=
  let langCode := franc detect 10 mdContent
  if langCode = "und" then
    { langTag := config.defaultLanguageCodeIso639_2letter
      direction := config.defaultDirection
      source := .defaulted }
  else
    { langTag :=
        match langsWhere3 langCode with
        | some tag => tag
        | none => langCode
      direction := if isRtlLang langCode then .rtl else .ltr
      source := .detected }

/- Output path mapping: embeds converter.ts lines 192-204.  Paths are modelled
   in posix form; the extension check of line 202 is applied to the input
   path, whose extension equals the extension of the path relative to the
   input root, because only the final path segment matters. -/

/-- Embeds path.basename: the final segment after the last slash. -/
def basenameOf (l : List Char) : List Char :=
  (l.reverse.takeWhile (fun c => c != '/')).reverse

/-- Embeds path.extname: the substring of the basename from its last dot, or
    empty when the basename has no dot or only a leading dot. -/
def extnameOf (l : List Char) : List Char :=
  let b := basenameOf l
  let afterDot := b.reverse.takeWhile (fun c => c != '.')
  if afterDot.length = b.length then []
  else if afterDot.length + 1 = b.length then []
  else '.' :: afterDot.reverse

/-- Embeds the Markdown test of converter.ts line 202:
    path.extname(inputFile).toLowerCase() compared with .md. -/
def mdExtension (p : String) : Bool :=
  (extnameOf p.data).map Char.toLower == ".md".data

/-- Embeds the replace call of converter.ts line 204: the anchored
    case-insensitive md suffix becomes .html, otherwise the string is kept. -/
def replaceMdSuffix (s : String) : String :=
  if endsDotMd s.data then ⟨stripLast3 s.data ++ ".html".data⟩ else s

/-- Embeds the output path computation of converter.ts lines 193-204: re-root
    the relative path under the output directory and, for Markdown files,
    substitute the extension. -/
def mapOutputPath (outputDir relativePath : String) : String :=
  let outputFile := outputDir ++ "/" ++ relativePath
  if mdExtension relativePath then replaceMdSuffix outputFile else outputFile

/- Pandoc invocation and the per-file conversion trace: embeds
   converter.ts lines 42-169 for the success path of a single Markdown file
   (file read, engine run and file writes are the external effects; their
   observable data is carried in the trace record). -/

/-- Embeds the argument construction of converter.ts lines 81-110: the built-in
    directives, then the css pair when a stylesheet is configured and exists on
    disk, then the user-supplied extra arguments, then input and output paths. -/
def buildPandocArgs (config : BadaviConfig) (langTag : String)
    (direction : Direction) (cssExists : Bool) (cssFullPath : String)
    (inputFile outputFile : String) : List String :=
  ["--from", "markdown", "--to", "html5", "--standalone",
   "--metadata", "lang=" ++ langTag, "--variable", "dir=" ++ dirStr direction]
  ++ (match config.cssPath with
      | some _ => if cssExists then ["--css", cssFullPath] else []
      | none => [])
  ++ (match config.pandocArgs with
      | some extra => extra
      | none => [])
  ++ [inputFile, "--output", outputFile]

/-- Observable data of one successful Markdown conversion: the resolved
    language, the pandoc arguments, the link-fix count of lines 143-158, and
    whether and with what content the output file was overwritten by the
    conditional write of lines 160-163. -/
structure ConvertTrace where
  resolution : LangResolution
  pandocArgs : List String
  linksFixedCount : Nat
  wroteLinkFix : Bool
  finalOutputContent : String
  deriving DecidableEq, Repr

/-- Embeds the success path of convertMarkdownFile (converter.ts lines 42-169):
    mdContent is the text read from the input file, engineOutput the text the
    engine produced at the output path, and cssExists the pathExists test of
    line 94.  The final content on disk is the rewritten text only when at
    least one link was fixed, because the write of line 161 is guarded by the
    count. -/
def convertMarkdownFile (detect : String → String) (config : BadaviConfig)
    (mdContent : String) (cssExists : Bool) (cssFullPath : String)
    (inputFile outputFile : String) (engineOutput : String) : ConvertTrace :=
  let res := resolveLanguage detect config mdContent
  let args := buildPandocArgs config res.langTag res.direction cssExists
      cssFullPath inputFile outputFile
  let fix := rewriteLinks engineOutput
  { resolution := res
    pandocArgs := args
    linksFixedCount := fix.2
    wroteLinkFix := decide (0 < fix.2)
    finalOutputContent := if 0 < fix.2 then fix.1 else engineOutput }

/- Orchestrator: embeds processFiles (converter.ts lines 172-233).  The file
   system walk has already produced the list of input files (findAllFiles);
   the per-file conversion and copy are modelled as fallible collaborators
   keyed by the relative path.  The function returns the unit value, matching
   the Promise of void return type of processFiles, together with the list of
   console events the loop emits, one terminal event per file. -/

/-- One enumerated input file, identified by its path relative to the input
    root (converter.ts line 193). -/
structure InputFile where
  relativePath : String
  deriving DecidableEq, Repr

/-- Terminal console event of one iteration of the loop of lines 192-225:
    success log, the convert-failure log of line 208 (which carries the
    relative path; the underlying message was printed by the inner catch of
    line 166), or the copy-failure log of line 220. -/
inductive FileEvent where
  | convertOk (relativePath : String)
  | convertFailed (relativePath : String) (msg : String)
  | copyOk (relativePath : String)
  | copyFailed (relativePath : String) (msg : String)
  deriving DecidableEq, Repr

/-- Embeds one iteration of the loop: the extension test of line 202 picks
    conversion or verbatim copy, and each branch catches its own failure and
    falls through to the next file. -/
def processOne (convert copy : String → Except String Unit)
    (f : InputFile) : FileEvent :=
  if mdExtension f.relativePath then
    match convert f.relativePath with
    | .ok _ => .convertOk f.relativePath
    | .error msg => .convertFailed f.relativePath msg
  else
    match copy f.relativePath with
    | .ok _ => .copyOk f.relativePath
    | .error msg => .copyFailed f.relativePath msg

/-- Embeds processFiles (converter.ts lines 172-233): iterate over the
    enumerated files in order; both per-file catch blocks only log and
    continue, and the function resolves with no value. -/
def processFiles (convert copy : String → Except String Unit) :
    List InputFile → Unit × List FileEvent
  | [] => ((), [])
  | f :: fs =>
    let rest := processFiles convert copy fs
    ((), processOne convert copy f :: rest.2)

/- Pandoc availability check: embeds checkPandoc (utils.ts lines 17-58).  The
   child process is modelled by its one observable outcome: either the error
   event fired (spawn failure) or the close event fired with an exit code
   (null when the process was killed by a signal).  The promise executor only
   ever calls resolve with a boolean, which the total function below reflects. -/

/-- Outcome of the child process spawned by checkPandoc. -/
inductive ProcessOutcome where
  | spawnError (msg : String)
  | closed (exitCode : Option Int)
  deriving DecidableEq, Repr

/-- Embeds utils.ts lines 17-58: the error handler resolves false, the close
    handler resolves true exactly when the exit code is zero. -/
def checkPandoc (outcome : ProcessOutcome) : Bool :=
  match outcome with
  | .spawnError _ => false
  | .closed code => code == some 0

/-- Collaborator that succeeds on every path (used to instantiate the
    orchestrator at concrete inputs). -/
def alwaysOk : String → Except String Unit := fun _ => .ok ()

/-- Collaborator that fails on every path with the pandoc failure message of
    converter.ts line 128 (used to instantiate the orchestrator at concrete
    inputs). -/
def alwaysFail : String → Except String Unit :=
  fun p => .error ("Pandoc conversion failed for " ++ p)

end Badavi

namespace Badavi

example : rewriteLinks "<a href=\"a/b.md?x=1#y\">t</a>" = ("<a href=\"a/b.html?x=1#y\">t</a>", 1) := by decide

example : rewriteLinks "<a href=\"http://example.com/doc.md\">x</a>" =
    ("<a href=\"http://example.com/doc.html\">x</a>", 1) := by decide

example : rewriteLinks "href=\"a.md?href=\"b.md\"" = ("href=\"a.html?href=\"b.md\"", 1) := by decide

example : rewriteLinks "href=\"a.html?href=\"b.md\"" = ("href=\"a.html?href=\"b.html\"", 1) := by decide

example : rewriteLinks "<p>no links here</p>" = ("<p>no links here</p>", 0) := by decide

example : rewriteLinks "HREF=\"notes.MD\"" = ("href=\"notes.html\"", 1) := by decide

example : mdExtension "sub/doc.MD" = true := by decide

example : mapOutputPath "/outputRoot" "sub/doc.MD" = "/outputRoot/sub/doc.html" := by decide

example : mapOutputPath "/outputRoot" "img/logo.png" = "/outputRoot/img/logo.png" := by decide

example : extnameOf ".md".data = [] := by decide

example : extnameOf "a.".data = ['.'] := by decide

example : resolveLanguage (fun _ => "pes") ⟨"en", .ltr, none, none, none⟩ "0123456789" =
    ⟨"fa", .rtl, .detected⟩ := by decide

example : resolveLanguage (fun _ => "eng") ⟨"en", .ltr, none, none, none⟩ "hi" =
    ⟨"en", .ltr, .defaulted⟩ := by decide

example : processFiles alwaysFail alwaysOk [⟨"a.md"⟩, ⟨"b.png"⟩] =
    ((), [.convertFailed "a.md" "Pandoc conversion failed for a.md", .copyOk "b.png"]) := by decide

example : checkPandoc (.closed (some 0)) = true := by decide

/- Helper lemmas. -/

/-- Characters with equal scalar values are equal. -/
theorem char_eq_of_toNat_eq {c d : Char} (h : c.toNat = d.toNat) : c = d :=
  Char.eq_of_val_eq (UInt32.ext h)

/-- Inversion of toLower at the letter m: only m itself and its upper-case
    form lower to m. -/
theorem toLower_eq_m {c : Char} (h : c.toLower = 'm') : c = 'm' ∨ c = 'M' := by
  simp only [Char.toLower] at h
  split at h
  · rename_i hc
    obtain ⟨h1, h2⟩ := hc
    refine Or.inr (char_eq_of_toNat_eq ?_)
    obtain ⟨n, hn⟩ : ∃ n, Char.toNat c = n := ⟨_, rfl⟩
    rw [hn] at h h1 h2
    rw [show Char.toNat 'M' = 77 from rfl, hn]
    interval_cases n <;> first | rfl | exact absurd h (by decide)
  · exact Or.inl h

/-- Inversion of toLower at the letter d: only d itself and its upper-case
    form lower to d. -/
theorem toLower_eq_d {c : Char} (h : c.toLower = 'd') : c = 'd' ∨ c = 'D' := by
  simp only [Char.toLower] at h
  split at h
  · rename_i hc
    obtain ⟨h1, h2⟩ := hc
    refine Or.inr (char_eq_of_toNat_eq ?_)
    obtain ⟨n, hn⟩ : ∃ n, Char.toNat c = n := ⟨_, rfl⟩
    rw [hn] at h h1 h2
    rw [show Char.toNat 'D' = 68 from rfl, hn]
    interval_cases n <;> first | rfl | exact absurd h (by decide)
  · exact Or.inl h

/-- The head of a nonempty dropWhile result fails the predicate. -/
theorem dropWhile_head_false {α : Type} (p : α → Bool) :
    ∀ (l : List α) c t, l.dropWhile p = c :: t → p c = false := by
  intro l
  induction l with
  | nil => intro c t h; simp [List.dropWhile] at h
  | cons a as ih =>
    intro c t h
    by_cases hp : p a = true
    · rw [List.dropWhile_cons_of_pos hp] at h
      exact ih c t h
    · rw [List.dropWhile_cons_of_neg hp] at h
      cases h
      simpa using hp

/-- A list whose extension lower-cases to .md ends in a dot, an m and a d, up
    to letter case: the Markdown test of line 202 implies that the anchored
    suffix pattern of line 204 fires. -/
theorem mdExtension_endsDotMd {r : String} (h : mdExtension r = true) :
    endsDotMd r.data = true := by
  have h' : (extnameOf r.data).map Char.toLower = ".md".data := by
    simpa [mdExtension] using h
  simp only [extnameOf] at h'
  by_cases h1 : ((basenameOf r.data).reverse.takeWhile (fun c => c != '.')).length =
      (basenameOf r.data).length
  · rw [if_pos h1] at h'
    simp [String.data] at h'
  · rw [if_neg h1] at h'
    by_cases h2 : ((basenameOf r.data).reverse.takeWhile (fun c => c != '.')).length + 1 =
        (basenameOf r.data).length
    · rw [if_pos h2] at h'
      simp [String.data] at h'
    · rw [if_neg h2] at h'
      simp only [List.map_cons, List.cons.injEq] at h'
      obtain ⟨-, h3⟩ := h'
      have hlen : ((basenameOf r.data).reverse.takeWhile (fun c => c != '.')).reverse.length = 2 := by
        have := congrArg List.length h3
        simpa using this
      obtain ⟨x, y, hxy⟩ := List.length_eq_two.mp hlen
      rw [hxy] at h3
      simp only [List.map_cons, List.map_nil, List.cons.injEq, and_true] at h3
      obtain ⟨hx, hy⟩ := h3
      have hafter : (basenameOf r.data).reverse.takeWhile (fun c => c != '.') = [y, x] := by
        have := congrArg List.reverse hxy
        simpa using this
      have hsplit := List.takeWhile_append_dropWhile (p := fun c => c != '.')
        (l := (basenameOf r.data).reverse)
      have hne : (basenameOf r.data).reverse.dropWhile (fun c => c != '.') ≠ [] := by
        intro hnil
        rw [hnil, List.append_nil] at hsplit
        apply h1
        have := congrArg List.length hsplit
        simpa using this
      obtain ⟨c, t, hdw⟩ : ∃ c t,
          (basenameOf r.data).reverse.dropWhile (fun c => c != '.') = c :: t := by
        rcases hcase : (basenameOf r.data).reverse.dropWhile (fun c => c != '.') with _ | ⟨c, t⟩
        · exact absurd hcase hne
        · exact ⟨c, t, rfl⟩
      have hdot : c = '.' := by
        have := dropWhile_head_false (fun c => c != '.') _ _ _ hdw
        simpa using this
      have hbrev : (basenameOf r.data).reverse =
          r.data.reverse.takeWhile (fun c => c != '/') := by
        simp [basenameOf]
      have hsplit2 := List.takeWhile_append_dropWhile (p := fun c => c != '/')
        (l := r.data.reverse)
      have hrev : r.data.reverse =
          y :: x :: '.' :: (t ++ r.data.reverse.dropWhile (fun c => c != '/')) := by
        conv_lhs => rw [← hsplit2, ← hbrev, ← hsplit, hafter, hdw, hdot]
        simp
      unfold endsDotMd
      rw [hrev]
      rcases toLower_eq_d hy with rfl | rfl <;> rcases toLower_eq_m hx with rfl | rfl <;> rfl

/-- A list ending in the case-insensitive md suffix has at least three
    characters. -/
theorem endsDotMd_length {l : List Char} (h : endsDotMd l = true) : 3 ≤ l.length := by
  unfold endsDotMd at h
  rcases hrev : l.reverse with _ | ⟨d, _ | ⟨m, _ | ⟨dot, rest⟩⟩⟩ <;> rw [hrev] at h
  · simp at h
  · simp at h
  · simp at h
  · have := congrArg List.length hrev
    simp at this
    omega

/-- The case-insensitive md suffix is stable under prepending. -/
theorem endsDotMd_append {a b : List Char} (h : endsDotMd b = true) :
    endsDotMd (a ++ b) = true := by
  unfold endsDotMd at h ⊢
  rcases hrev : b.reverse with _ | ⟨d, _ | ⟨m, _ | ⟨dot, rest⟩⟩⟩ <;> rw [hrev] at h
  · simp at h
  · simp at h
  · simp at h
  · rw [List.reverse_append, hrev]
    simpa using h

/-- Removing the last three characters distributes over an append whose right
    part has at least three characters. -/
theorem stripLast3_append {a b : List Char} (h : 3 ≤ b.length) :
    stripLast3 (a ++ b) = a ++ stripLast3 b := by
  unfold stripLast3
  rw [List.length_append, List.take_append_eq_append_take]
  have h1 : a.length ≤ a.length + b.length - 3 := by omega
  rw [List.take_of_length_le h1]
  have h2 : a.length + b.length - 3 - a.length = b.length - 3 := by omega
  rw [h2]

/-- The suffix substitution of line 204 on a re-rooted path only touches the
    relative part, when that part carries the md suffix. -/
theorem replaceMdSuffix_append {s t : String} (h : endsDotMd t.data = true) :
    replaceMdSuffix (s ++ t) = ⟨s.data ++ (stripLast3 t.data ++ ".html".data)⟩ := by
  unfold replaceMdSuffix
  rw [String.data_append, if_pos (by rw [endsDotMd_append h])]
  apply String.ext
  simp only []
  rw [stripLast3_append (endsDotMd_length h), List.append_assoc]

/-- A scan that made no substitution copied every character unchanged. -/
theorem rewriteAux_count_zero : ∀ (fuel : Nat) (l : List Char),
    (rewriteAux fuel l).2 = 0 → (rewriteAux fuel l).1 = l := by
  intro fuel
  induction fuel with
  | zero =>
    intro l h
    cases l <;> simp [rewriteAux]
  | succ n ih =>
    intro l h
    cases l with
    | nil => simp [rewriteAux]
    | cons c cs =>
      cases hm : hrefAt (c :: cs) with
      | some v =>
        obtain ⟨rep, rest⟩ := v
        simp only [rewriteAux, hm] at h
        simp at h
      | none =>
        simp only [rewriteAux, hm] at h ⊢
        simp [ih cs h]

/- Claim theorems. -/

/-- Claim C1 (code bug evaluation): the link rewriter matches an absolute URL
    with a different scheme whose path ends in .md and rewrites it, with a
    substitution count of one, although the comment above the regex
    (converter.ts line 147) states that external URLs are not matched. -/
theorem claim1_absolute_url_rewritten :
    rewriteLinks "<a href=\"http://example.com/doc.md\">x</a>" =
      ("<a href=\"http://example.com/doc.html\">x</a>", 1) := by decide

/-- Claim C2 (counterexample): the value returned by processFiles is the unit
    value in every run, so a run in which a file failed conversion returns the
    very same value as a run in which every file succeeded; only the emitted
    log distinguishes the two runs.  The claimed outcome sequence is not part
    of the return value. -/
theorem claim2_return_value_counterexample :
    (processFiles alwaysFail alwaysOk [⟨"a.md"⟩]).1 =
      (processFiles alwaysOk alwaysOk [⟨"a.md"⟩]).1
  ∧ (processFiles alwaysFail alwaysOk [⟨"a.md"⟩]).2 ≠
      (processFiles alwaysOk alwaysOk [⟨"a.md"⟩]).2 :=
  ⟨rfl, by decide⟩

/-- Claim C2 (amended): processFiles emits exactly one terminal log event per
    enumerated input file, in order, so a failure never halts the processing
    of subsequent files; a conversion failure is logged with the relative path
    and the underlying message, and likewise a copy failure.  The function
    itself returns no outcome sequence. -/
theorem claim2_outcomes_logged (convert copy : String → Except String Unit)
    (files : List InputFile) :
    (processFiles convert copy files).2 = files.map (processOne convert copy)
  ∧ (∀ f msg, mdExtension f.relativePath = true → convert f.relativePath = .error msg →
      processOne convert copy f = .convertFailed f.relativePath msg)
  ∧ (∀ f msg, mdExtension f.relativePath = false → copy f.relativePath = .error msg →
      processOne convert copy f = .copyFailed f.relativePath msg) := by
  refine ⟨?_, ?_, ?_⟩
  · induction files with
    | nil => simp [processFiles]
    | cons f fs ih => simp [processFiles, ih]
  · intro f msg h1 h2
    simp [processOne, h1, h2]
  · intro f msg h1 h2
    simp [processOne, h1, h2]

/-- Claim C2 (witness): a Markdown file whose conversion fails is logged as a
    conversion failure carrying its relative path and the failure message. -/
theorem claim2_outcomes_logged_witness :
    processOne alwaysFail alwaysOk ⟨"a.md"⟩ =
      .convertFailed "a.md" "Pandoc conversion failed for a.md" :=
  (claim2_outcomes_logged alwaysFail alwaysOk []).2.1 ⟨"a.md"⟩
    "Pandoc conversion failed for a.md" (by decide) rfl

/-- Claim C3: content shorter than the minimum reliable-detection length, or
    content on which the detector returns the undetermined sentinel, resolves
    to exactly the configured default tag and direction with the defaulted
    source, regardless of the content. -/
theorem claim3_default_resolution (detect : String → String) (config : BadaviConfig)
    (content : String) (h : content.length < 10 ∨ detect content = "und") :
    resolveLanguage detect config content =
      { langTag := config.defaultLanguageCodeIso639_2letter
        direction := config.defaultDirection
        source := .defaulted } := by
  have hu : franc detect 10 content = "und" := by
    unfold franc
    rcases h with h | h
    · rw [if_pos h]
    · split
      · rfl
      · exact h
  simp [resolveLanguage, hu]

/-- Claim C3 (witness): two characters of content resolve to the configured
    defaults even though the detector would have returned English. -/
theorem claim3_default_resolution_witness :
    resolveLanguage (fun _ => "eng") ⟨"en", .ltr, none, none, none⟩ "hi" =
      ⟨"en", .ltr, .defaulted⟩ :=
  claim3_default_resolution _ _ _ (Or.inl (by decide))

/-- Claim C4: a determined detection resolves with the detected source; the
    tag is the static-table entry for the code, falling back to the code
    itself when the table has no entry; and the direction is rtl exactly when
    the code belongs to the static right-to-left set, which holds at minimum
    the Persian, Arabic, Hebrew and Urdu codes, and ltr for every other
    determined code. -/
theorem claim4_detected_resolution (detect : String → String) (config : BadaviConfig)
    (content : String) (h : franc detect 10 content ≠ "und") :
    (resolveLanguage detect config content).source = .detected
  ∧ (resolveLanguage detect config content).langTag =
      (langsWhere3 (franc detect 10 content)).getD (franc detect 10 content)
  ∧ ((resolveLanguage detect config content).direction = .rtl ↔
      franc detect 10 content ∈ rtlLangCodes)
  ∧ ((resolveLanguage detect config content).direction = .ltr ↔
      franc detect 10 content ∉ rtlLangCodes)
  ∧ "pes" ∈ rtlLangCodes ∧ "arb" ∈ rtlLangCodes
  ∧ "heb" ∈ rtlLangCodes ∧ "urd" ∈ rtlLangCodes := by
  have hmem : isRtlLang (franc detect 10 content) = true ↔
      franc detect 10 content ∈ rtlLangCodes := by
    simp [isRtlLang]
  refine ⟨?_, ?_, ?_, ?_, by decide, by decide, by decide, by decide⟩
  · simp [resolveLanguage, h]
  · simp only [resolveLanguage]
    rw [if_neg h]
    cases hl : langsWhere3 (franc detect 10 content) <;> simp [hl]
  · simp only [resolveLanguage]
    rw [if_neg h]
    by_cases hr : isRtlLang (franc detect 10 content) = true
    · simp [hr, hmem.mp hr]
    · have : franc detect 10 content ∉ rtlLangCodes := fun hc => hr (hmem.mpr hc)
      simp [Bool.not_eq_true] at hr
      simp [hr, this]
  · simp only [resolveLanguage]
    rw [if_neg h]
    by_cases hr : isRtlLang (franc detect 10 content) = true
    · simp [hr, hmem.mp hr]
    · have : franc detect 10 content ∉ rtlLangCodes := fun hc => hr (hmem.mpr hc)
      simp [Bool.not_eq_true] at hr
      simp [hr, this]

/-- Claim C4 (witness): a detected Persian code resolves to the fa tag with
    direction rtl and the detected source. -/
theorem claim4_detected_resolution_witness :
    (resolveLanguage (fun _ => "pes") ⟨"en", .ltr, none, none, none⟩ "0123456789").direction =
      Direction.rtl :=
  (claim4_detected_resolution (fun _ => "pes") ⟨"en", .ltr, none, none, none⟩
    "0123456789" (by decide)).2.2.1.mpr (by decide)

/-- Claim C5: the output path re-roots the relative path under the output
    root preserving it exactly, except that a relative path whose extension is
    md in any letter case has its final three characters replaced by the html
    suffix; every other extension is preserved unchanged, and the mapping is a
    function, so each input yields exactly one output path. -/
theorem claim5_output_path_mapping (outputDir r : String) :
    (mdExtension r = true →
      mapOutputPath outputDir r =
        outputDir ++ "/" ++ (⟨stripLast3 r.data⟩ : String) ++ ".html")
  ∧ (mdExtension r = false → mapOutputPath outputDir r = outputDir ++ "/" ++ r) := by
  constructor
  · intro h
    have hd := mdExtension_endsDotMd h
    unfold mapOutputPath
    rw [if_pos h, replaceMdSuffix_append hd]
    apply String.ext
    simp [String.data_append]
  · intro h
    simp [mapOutputPath, h]

/-- Claim C5 (witness): the documented example, an upper-case md file in a
    subdirectory, maps to the html file under the output root. -/
theorem claim5_output_path_mapping_witness :
    mapOutputPath "/outputRoot" "sub/doc.MD" = "/outputRoot/sub/doc.html" := by
  have h := (claim5_output_path_mapping "/outputRoot" "sub/doc.MD").1 (by decide)
  rw [h]
  decide

/-- Claim C6: a link with both a query string and a fragment has only its path
    portion rewritten: the query and fragment are captured separately and
    re-appended verbatim, and the substitution count is one. -/
theorem claim6_query_fragment_preserved :
    rewriteLinks "... href=\"a/b.md?x=1#y\" ..." =
      ("... href=\"a/b.html?x=1#y\" ...", 1) := by decide

/-- Claim C7 (counterexample): the rewriter is not idempotent; on this input
    the first pass rewrites one link and leaves text that the second pass
    matches again, so the second pass substitutes once more and changes the
    text. -/
theorem claim7_not_idempotent :
    (rewriteLinks (rewriteLinks "href=\"a.md?href=\"b.md\"").1).2 = 1
  ∧ (rewriteLinks (rewriteLinks "href=\"a.md?href=\"b.md\"").1).1 ≠
      (rewriteLinks "href=\"a.md?href=\"b.md\"").1 := by
  constructor <;> decide

/-- Claim C7 (amended): on any text on which the rewriter makes zero
    substitutions, it returns the input unchanged; in particular text without
    any md link passes through with count zero. -/
theorem claim7_zero_count_unchanged (html : String)
    (h : (rewriteLinks html).2 = 0) : (rewriteLinks html).1 = html := by
  simp only [rewriteLinks] at h ⊢
  exact congrArg String.mk (rewriteAux_count_zero html.data.length html.data h)

/-- Claim C7 (witness): a text with no links passes through unchanged. -/
theorem claim7_zero_count_unchanged_witness :
    (rewriteLinks "<p>no links here</p>").1 = "<p>no links here</p>" :=
  claim7_zero_count_unchanged "<p>no links here</p>" (by decide)

/-- Claim C8: the pandoc arguments of every Markdown conversion carry the
    resolved language tag as lang metadata, and the dir variable rtl exactly
    for right-to-left resolutions and ltr for left-to-right ones. -/
theorem claim8_direction_directives (detect : String → String) (config : BadaviConfig)
    (mdContent : String) (cssExists : Bool) (cssFullPath : String)
    (inputFile outputFile engineOutput : String) :
    ("lang=" ++ (convertMarkdownFile detect config mdContent cssExists cssFullPath
        inputFile outputFile engineOutput).resolution.langTag) ∈
      (convertMarkdownFile detect config mdContent cssExists cssFullPath
        inputFile outputFile engineOutput).pandocArgs
  ∧ ((convertMarkdownFile detect config mdContent cssExists cssFullPath
        inputFile outputFile engineOutput).resolution.direction = .rtl →
      "dir=rtl" ∈ (convertMarkdownFile detect config mdContent cssExists cssFullPath
        inputFile outputFile engineOutput).pandocArgs)
  ∧ ((convertMarkdownFile detect config mdContent cssExists cssFullPath
        inputFile outputFile engineOutput).resolution.direction = .ltr →
      "dir=ltr" ∈ (convertMarkdownFile detect config mdContent cssExists cssFullPath
        inputFile outputFile engineOutput).pandocArgs) := by
  refine ⟨?_, ?_, ?_⟩
  · simp [convertMarkdownFile, buildPandocArgs]
  · intro h
    simp only [convertMarkdownFile] at h ⊢
    rw [h, show ("dir=rtl" : String) = "dir=" ++ dirStr .rtl from rfl]
    simp [buildPandocArgs]
  · intro h
    simp only [convertMarkdownFile] at h ⊢
    rw [h, show ("dir=ltr" : String) = "dir=" ++ dirStr .ltr from rfl]
    simp [buildPandocArgs]

/-- Claim C8 (witness): a conversion whose content is detected as Persian
    passes the rtl dir variable to the engine. -/
theorem claim8_direction_directives_witness :
    "dir=rtl" ∈ (convertMarkdownFile (fun _ => "pes") ⟨"en", .ltr, none, none, none⟩
      "0123456789" false "" "in.md" "out.html" "<p>x</p>").pandocArgs :=
  (claim8_direction_directives (fun _ => "pes") ⟨"en", .ltr, none, none, none⟩
    "0123456789" false "" "in.md" "out.html" "<p>x</p>").2.1 (by decide)

/-- Claim C9: after a successful engine conversion, the output file is
    overwritten exactly when the link rewriter made at least one substitution;
    with a count of zero no write happens and the file on disk stays exactly
    the engine output. -/
theorem claim9_conditional_write (detect : String → String) (config : BadaviConfig)
    (mdContent : String) (cssExists : Bool) (cssFullPath : String)
    (inputFile outputFile engineOutput : String) :
    ((convertMarkdownFile detect config mdContent cssExists cssFullPath
        inputFile outputFile engineOutput).wroteLinkFix = true ↔
      0 < (rewriteLinks engineOutput).2)
  ∧ ((rewriteLinks engineOutput).2 = 0 →
      (convertMarkdownFile detect config mdContent cssExists cssFullPath
        inputFile outputFile engineOutput).wroteLinkFix = false
      ∧ (convertMarkdownFile detect config mdContent cssExists cssFullPath
          inputFile outputFile engineOutput).finalOutputContent = engineOutput)
  ∧ (0 < (rewriteLinks engineOutput).2 →
      (convertMarkdownFile detect config mdContent cssExists cssFullPath
        inputFile outputFile engineOutput).finalOutputContent =
        (rewriteLinks engineOutput).1) := by
  refine ⟨?_, ?_, ?_⟩
  · simp [convertMarkdownFile]
  · intro h
    simp [convertMarkdownFile, h]
  · intro h
    simp [convertMarkdownFile, h]

/-- Claim C9 (witness): an engine output without md links is not rewritten:
    no overwrite happens and the content on disk is the engine output. -/
theorem claim9_conditional_write_witness :
    (convertMarkdownFile (fun _ => "und") ⟨"en", .ltr, none, none, none⟩
      "x" false "" "in.md" "out.html" "<p>x</p>").finalOutputContent = "<p>x</p>" :=
  ((claim9_conditional_write (fun _ => "und") ⟨"en", .ltr, none, none, none⟩
    "x" false "" "in.md" "out.html" "<p>x</p>").2.1 (by decide)).2

/-- Claim C10: checkPandoc is total at its interface: every process outcome
    resolves to a boolean, a spawn error and every non-zero or missing exit
    code resolve false, and exit code zero resolves true. -/
theorem claim10_checkPandoc_total :
    (∀ msg, checkPandoc (.spawnError msg) = false)
  ∧ checkPandoc (.closed (some 0)) = true
  ∧ (∀ code, code ≠ some 0 → checkPandoc (.closed code) = false) := by
  refine ⟨fun _ => rfl, rfl, ?_⟩
  intro code h
  simp [checkPandoc, h]

/-- Claim C10 (witness): a non-zero exit code resolves false. -/
theorem claim10_checkPandoc_total_witness :
    checkPandoc (.closed (some 2)) = false :=
  claim10_checkPandoc_total.2.2 (some 2) (by decide)

end Badavi
